import Mathlib

/-!
Shallow embedding of the `unsync` storage core of the `bytes` repository
(`src/unsync/storage.rs`, `src/unsync/bytes_ro.rs`, `src/unsync/iter.rs`).

Machine model:
* `usize` arithmetic is `Nat`, reduced `% 2 ^ 64` exactly where the source
  performs a wrapping/truncating operation (shifts of the tag word).
* Raw pointers are `Ptr` = (allocation id, byte offset); pointer arithmetic
  moves the offset, pointer equality is componentwise (distinct live
  allocations are never adjacent).
* The heap is `State`: a list of allocations (raw byte buffers; a freed
  allocation becomes `none`) and a list of `Shared` records (the refcounted
  blocks).  The payload of the inline representation is modelled as the
  `inlData` field of `Storage` instead of the raw bit-packing into the tag
  word and trailing struct bytes; the tag word itself keeps exactly the
  length/discriminant bits the source keeps in its low byte.
* Panics (failed `assert!`) are modelled as `none` results; `debug_assert!`
  is compiled out in release builds and is not modelled.
* Uninitialized memory reads as `0` (`Storage::new` zero-fills the struct in
  the model; the source leaves it uninitialized but never reads those words
  while the storage is inline).
-/

namespace UnsyncBytes

abbrev Byte := Nat

/-- Number of value bits in `usize` (64-bit target). -/
def wordMod : Nat := 2 ^ 64

/-- `mem::size_of::<Storage>() - 1` = 4 words - 1 byte on a 64-bit target. -/
def INLINE_CAPACITY : Nat := 31

/-- `8 * mem::size_of::<usize>() - 2`. -/
def MAX_KIND_VEC_CAPACITY_BITS : Nat := 8 * 8 - 2

/-- A raw pointer: allocation id plus byte offset inside the allocation. -/
structure Ptr where
  base : Nat
  off : Nat
deriving DecidableEq

/-- The heap record behind a `Shared` kind: `struct Shared { ptr, cap, ref_count }`. -/
structure SharedRec where
  ptr : Ptr
  cap : Nat
  refCount : Nat
deriving DecidableEq

/-- A `Vec<u8>` value: base pointer, initialized length, capacity.
The backing bytes live in the allocation `ptr.base` of the `State`. -/
structure RVec where
  ptr : Ptr
  len : Nat
  cap : Nat
deriving DecidableEq

/-- The heap: raw allocations (`none` = freed) and `Shared` boxes (`none` = freed). -/
structure State where
  allocs : List (Option (List Byte))
  shareds : List (Option SharedRec)
deriving DecidableEq

def State.empty : State := ⟨[], []⟩

def State.allocMem (st : State) (i : Nat) : List Byte :=
  match st.allocs.getD i none with
  | some m => m
  | none => []

def State.writeAlloc (st : State) (i : Nat) (m : List Byte) : State :=
  { st with allocs := st.allocs.set i (some m) }

def State.freeAlloc (st : State) (i : Nat) : State :=
  { st with allocs := st.allocs.set i none }

def State.newAlloc (st : State) (m : List Byte) : Nat × State :=
  (st.allocs.length, { st with allocs := st.allocs ++ [some m] })

/-- Address at which the model places `Shared` box number `i`: nonzero,
4-aligned, so its low two tag bits are `00` as the source layout guarantees. -/
def sharedAddr (i : Nat) : Nat := 4 * (i + 1)

def State.getShared (st : State) (addr : Nat) : Option SharedRec :=
  st.shareds.getD (addr / 4 - 1) none

def State.setShared (st : State) (addr : Nat) (r : SharedRec) : State :=
  { st with shareds := st.shareds.set (addr / 4 - 1) (some r) }

def State.freeShared (st : State) (addr : Nat) : State :=
  { st with shareds := st.shareds.set (addr / 4 - 1) none }

def State.newShared (st : State) (r : SharedRec) : Nat × State :=
  (sharedAddr st.shareds.length, { st with shareds := st.shareds ++ [some r] })

/-- Write `bs` into allocation memory `m` at offset `off`. -/
def writeList (m : List Byte) (off : Nat) (bs : List Byte) : List Byte :=
  m.take off ++ bs ++ m.drop (off + bs.length)

def State.readMem (st : State) (p : Ptr) (n : Nat) : List Byte :=
  ((st.allocMem p.base).drop p.off).take n

def State.writeMem (st : State) (p : Ptr) (bs : List Byte) : State :=
  st.writeAlloc p.base (writeList (st.allocMem p.base) p.off bs)

/-- The decoded view of the tag word (`enum Kind`). -/
inductive Kind where
  | static
  | vec (offset : Nat)
  | inlineData (len : Nat)
  | shared (addr : Nat)
deriving DecidableEq

/-- `Kind::encode`.  Inline payload bits (bits 8+) are kept at zero in the
model; the payload is carried in `Storage.inlData` instead. -/
def Kind.encode : Kind → Nat
  | Kind.static => 0
  | Kind.vec offset => ((offset <<< 2) % wordMod) ||| 0x1
  | Kind.inlineData len => ((len <<< 2) % 256) ||| 0x2
  | Kind.shared addr => addr

/-- `!0xff` as a `usize`. -/
def NOT_FF : Nat := (wordMod - 1) ^^^ 0xff

/-- `!0xfc` as a `usize`. -/
def NOT_FC : Nat := (wordMod - 1) ^^^ 0xfc

namespace KindTag

/-- `KindTag::decode`. -/
def decode (t : Nat) : Kind :=
  if t = 0 then Kind.static
  else if t &&& 0x1 = 0x1 then Kind.vec (t >>> 2)
  else if t &&& 0x2 = 0x2 then Kind.inlineData ((t &&& 0xff) >>> 2)
  else Kind.shared t

/-- `KindTag::is_inline`: tests bit 1 alone. -/
def is_inline (t : Nat) : Bool := t &&& 0x2 != 0

/-- `KindTag::decode_inline_len`. -/
def decode_inline_len (t : Nat) : Option Nat :=
  if is_inline t then some ((t &&& 0xff) >>> 2) else none

/-- `KindTag::is_inline_empty`. -/
def is_inline_empty (t : Nat) : Option Bool :=
  if is_inline t then some (t &&& 0xff == 0x02) else none

/-- `KindTag::is_static`. -/
def is_static (t : Nat) : Bool := t == 0

/-- `KindTag::is_vec`. -/
def is_vec (t : Nat) : Bool := t &&& 0x1 == 0x1

/-- `KindTag::advance_vec`: the source computes `self.0.get() + skip << 2`,
which by Rust operator precedence is `(tag + skip) << 2`, truncated to the
word size. -/
def advance_vec (t skip : Nat) : Nat := ((t + skip) <<< 2) % wordMod

/-- `KindTag::set_empty`: `(t & !0xff) | 0x02`. -/
def set_empty (t : Nat) : Nat := (t &&& NOT_FF) ||| 0x2

/-- `KindTag::set_inline_len`: `(t & !0xfc) | (len << 2)`. -/
def set_inline_len (t len : Nat) : Nat := (t &&& NOT_FC) ||| ((len <<< 2) % wordMod)

end KindTag

/-- `struct Storage { kind, ptr, len, cap }`.  `inlData` carries the payload
bytes of the inline representation (the source packs them into the upper tag
bits and the remaining struct words); only its first `decode_inline_len tag`
bytes are meaningful. -/
structure Storage where
  tag : Nat
  inlData : List Byte
  ptr : Ptr
  len : Nat
  cap : Nat
deriving DecidableEq

namespace KindShared

/-- `KindShared::release`. -/
def release (st : State) (addr : Nat) : State :=
  match st.getShared addr with
  | none => st
  | some r =>
    if r.refCount - 1 > 0 then st.setShared addr { r with refCount := r.refCount - 1 }
    else (st.freeAlloc r.ptr.base).freeShared addr

/-- `KindShared::acquire`. -/
def acquire (st : State) (addr : Nat) : State :=
  match st.getShared addr with
  | none => st
  | some r => st.setShared addr { r with refCount := r.refCount + 1 }

/-- `KindShared::try_into_vec`: on refcount 1 hand the vector (length
`offset + storage.len`, full block capacity) back, mark the storage empty and
free the `Shared` box (keeping the allocation, now owned by the vector). -/
def try_into_vec (st : State) (addr : Nat) (s : Storage) :
    Option ((RVec × Nat) × Storage × State) :=
  match st.getShared addr with
  | none => none
  | some r =>
    if r.refCount ≠ 1 then none
    else
      let offset := s.ptr.off - r.ptr.off
      some ((⟨r.ptr, offset + s.len, r.cap⟩, offset),
        { s with tag := KindTag.set_empty s.tag }, st.freeShared addr)

/-- `KindShared::new1`: box a vector into a fresh `Shared` with refcount 1. -/
def new1 (st : State) (v : RVec) : Nat × State :=
  st.newShared { ptr := v.ptr, cap := v.cap, refCount := 1 }

/-- `KindShared::new2`: same with refcount 2. -/
def new2 (st : State) (v : RVec) : Nat × State :=
  st.newShared { ptr := v.ptr, cap := v.cap, refCount := 2 }

end KindShared

namespace KindVec

/-- `KindVec::rebuild_vec`: reconstitute the owned vector (base = ptr − offset,
length = len + offset, capacity = cap + offset) and blank the storage tag. -/
def rebuild_vec (offset : Nat) (s : Storage) : RVec × Storage :=
  (⟨{ base := s.ptr.base, off := s.ptr.off - offset }, s.len + offset, s.cap + offset⟩,
   { s with tag := KindTag.set_empty s.tag })

/-- `KindVec::store`: wrap a vector as a `Vec`-kind storage at `offset`; if the
capacity does not fit the offset field (top two bits set), box it into a
`Shared` with refcount 1 instead. -/
def store (st : State) (offset : Nat) (v : RVec) : Storage × State :=
  let ptr : Ptr := { base := v.ptr.base, off := v.ptr.off + offset }
  let len := v.len - offset
  let cap := v.cap - offset
  if v.cap >>> MAX_KIND_VEC_CAPACITY_BITS ≠ 0 then
    let (addr, st') := KindShared.new1 st v
    ({ tag := addr, inlData := [], ptr := ptr, len := len, cap := cap }, st')
  else
    ({ tag := Kind.encode (Kind.vec offset), inlData := [], ptr := ptr, len := len, cap := cap },
     st)

end KindVec

/-- `Vec::with_capacity`: fresh allocation, length 0.  Uninitialized capacity
bytes read as `0` in the model. -/
def vecWithCapacity (st : State) (n : Nat) : RVec × State :=
  let (i, st') := st.newAlloc (List.replicate n 0)
  (⟨{ base := i, off := 0 }, 0, n⟩, st')

/-- `Vec::reserve`: std guarantees capacity ≥ len + additional afterwards; the
exact growth is unspecified, modelled minimally (in place, base unchanged). -/
def vecReserve (st : State) (v : RVec) (additional : Nat) : RVec × State :=
  if v.len + additional ≤ v.cap then (v, st)
  else
    let newCap := v.len + additional
    let m := st.allocMem v.ptr.base
    ({ v with cap := newCap },
     st.writeAlloc v.ptr.base (m ++ List.replicate (newCap - m.length) 0))

/-- `Vec::extend_from_slice` under the caller's guarantee that capacity
suffices (all call sites reserve first). -/
def vecExtend (st : State) (v : RVec) (data : List Byte) : RVec × State :=
  ({ v with len := v.len + data.length },
   st.writeMem { base := v.ptr.base, off := v.ptr.off + v.len } data)

namespace Storage

/-- `Storage::new`: canonical empty inline storage.  The source leaves the
non-tag words uninitialized; the model zero-fills them. -/
def new : Storage :=
  { tag := 0x2, inlData := [], ptr := { base := 0, off := 0 }, len := 0, cap := 0 }

/-- `Storage::from_static`.  The static slice is modelled as a fresh
allocation that is never freed. -/
def from_static (st : State) (data : List Byte) : Storage × State :=
  let (i, st') := st.newAlloc data
  ({ tag := 0, inlData := [], ptr := { base := i, off := 0 },
     len := data.length, cap := data.length }, st')

/-- `Storage::from_data_inline`. -/
def from_data_inline (data : List Byte) : Storage :=
  { Storage.new with
    tag := KindTag.set_inline_len Storage.new.tag data.length
    inlData := data }

/-- `Storage::alloc_vec`. -/
def alloc_vec (st : State) (capacity : Nat) : Storage × State :=
  let (v, st') := vecWithCapacity st capacity
  KindVec.store st' 0 v

/-- `Storage::with_capacity_and_data`. -/
def with_capacity_and_data (st : State) (capacity : Nat) (data : List Byte) :
    Storage × State :=
  if capacity ≤ INLINE_CAPACITY then (Storage.from_data_inline data, st)
  else
    let (v, st') := vecWithCapacity st capacity
    let (v', st'') := vecExtend st' v data
    KindVec.store st'' 0 v'

/-- `Storage::with_capacity`. -/
def with_capacity (st : State) (capacity : Nat) : Storage × State :=
  if capacity ≤ INLINE_CAPACITY then (Storage.new, st)
  else Storage.alloc_vec st capacity

/-- `Storage::from_data`. -/
def from_data (st : State) (data : List Byte) : Storage × State :=
  if data.length ≤ INLINE_CAPACITY then (Storage.from_data_inline data, st)
  else
    let (s, st') := Storage.alloc_vec st data.length
    ({ s with len := data.length }, st'.writeMem s.ptr data)

/-- `Storage::len`. -/
def length (s : Storage) : Nat :=
  (KindTag.decode_inline_len s.tag).getD s.len

/-- `Storage::is_empty`. -/
def is_empty (s : Storage) : Bool :=
  (KindTag.is_inline_empty s.tag).getD (s.len == 0)

/-- `Storage::capacity`. -/
def capacity (s : Storage) : Nat :=
  if KindTag.is_inline s.tag then INLINE_CAPACITY else s.cap

/-- `Storage::data` (via `raw_data`): a slice of length `self.len()`. -/
def data (st : State) (s : Storage) : List Byte :=
  match KindTag.decode_inline_len s.tag with
  | some l => s.inlData.take l
  | none => st.readMem s.ptr s.len

/-- `Storage::truncate`. -/
def truncate (s : Storage) (len : Nat) : Storage :=
  match KindTag.decode_inline_len s.tag with
  | some cur =>
    if len < cur then { s with tag := KindTag.set_inline_len s.tag len } else s
  | none =>
    if len < s.len then { s with len := len } else s

/-- `Storage::truncate_capacity`. -/
def truncate_capacity (s : Storage) (len : Nat) : Storage :=
  match KindTag.decode s.tag with
  | Kind.static => if len < s.len then { s with len := len } else s
  | Kind.vec _ => if len < s.len then { s with len := len } else s
  | Kind.inlineData cur =>
    if len < cur then { s with tag := KindTag.set_inline_len s.tag len } else s
  | Kind.shared _ =>
    if len < s.len then { s with len := len, cap := len }
    else if len < s.cap then { s with cap := len }
    else s

/-- `Storage::inc_len`; `none` models the `assert!` panic. -/
def inc_len (s : Storage) (len : Nat) : Option Storage :=
  match KindTag.decode_inline_len s.tag with
  | some cur =>
    if len ≤ INLINE_CAPACITY - cur then
      some { s with tag := KindTag.set_inline_len s.tag (cur + len) }
    else none
  | none =>
    if len ≤ s.cap - s.len then some { s with len := s.len + len } else none

/-- Length of the slice returned by `Storage::reserved` as the source computes
it: `slice::from_raw_parts_mut(begin, INLINE_CAPACITY)` for inline and
`slice::from_raw_parts_mut(begin, self.cap)` otherwise (where `begin` is the
data pointer advanced by the current length). -/
def reserved_slice_len (s : Storage) : Nat :=
  match KindTag.decode_inline_len s.tag with
  | some _ => INLINE_CAPACITY
  | none => s.cap

/-- Offset (from the data pointer) at which the slice returned by
`Storage::reserved` begins: the current length, in both branches. -/
def reserved_slice_start (s : Storage) : Nat :=
  match KindTag.decode_inline_len s.tag with
  | some len => len
  | none => s.len

/-- `Storage::reserved_len`. -/
def reserved_len (s : Storage) : Nat :=
  match KindTag.decode_inline_len s.tag with
  | some len => INLINE_CAPACITY - len
  | none => s.cap - s.len

/-- `Storage::reserve_from_vec`. -/
def reserve_from_vec (st : State) (v : RVec) (offset additional : Nat) :
    Storage × State :=
  let content_len := v.len - offset
  let required := content_len + additional
  if v.cap < required then
    let st' :=
      if 0 < offset ∧ 0 < content_len then
        st.writeMem v.ptr
          (st.readMem { base := v.ptr.base, off := v.ptr.off + offset } content_len)
      else st
    KindVec.store st' 0 { v with len := content_len }
  else if offset < 32 then
    let (v', st') := vecReserve st v additional
    KindVec.store st' offset v'
  else
    Storage.with_capacity_and_data st required
      (st.readMem { base := v.ptr.base, off := v.ptr.off + offset } content_len)

/-- `Storage::reserve`; `none` models the panic on static storage. -/
def reserve (st : State) (s : Storage) (additional : Nat) :
    Option (Storage × State) :=
  if additional = 0 then some (s, st)
  else
    match KindTag.decode s.tag with
    | Kind.static => none
    | Kind.vec offset =>
      if s.len + additional > s.cap then
        let (v, _) := KindVec.rebuild_vec offset s
        some (Storage.reserve_from_vec st v offset additional)
      else some (s, st)
    | Kind.inlineData l =>
      if l + additional > INLINE_CAPACITY then
        some (Storage.with_capacity_and_data st (l + additional) (s.inlData.take l))
      else some (s, st)
    | Kind.shared _ =>
      if s.len + additional > s.cap then
        match KindShared.try_into_vec st s.tag s with
        | some ((v, offset), _, st') =>
          some (Storage.reserve_from_vec st' v offset additional)
        | none =>
          some (Storage.with_capacity_and_data st (s.len + additional)
            (st.readMem s.ptr s.len))
      else some (s, st)

/-- `Storage::set_empty` (the `&mut self` method): note the `Static` and
`Inline` arms do nothing at all, leaving the storage unchanged. -/
def set_empty (st : State) (s : Storage) : Storage × State :=
  match KindTag.decode s.tag with
  | Kind.static => (s, st)
  | Kind.inlineData _ => (s, st)
  | Kind.vec offset =>
    let (v, s') := KindVec.rebuild_vec offset s
    (s', st.freeAlloc v.ptr.base)
  | Kind.shared addr =>
    ({ s with tag := KindTag.set_empty s.tag }, KindShared.release st addr)

/-- `Drop for Storage`. -/
def dropS (st : State) (s : Storage) : State :=
  match KindTag.decode s.tag with
  | Kind.static => st
  | Kind.inlineData _ => st
  | Kind.vec _ => st.freeAlloc s.ptr.base
  | Kind.shared addr => KindShared.release st addr

/-- `Storage::advance`; `none` models the `assert!` panic. -/
def advance (st : State) (s : Storage) (skip : Nat) : Option (Storage × State) :=
  match KindTag.decode_inline_len s.tag with
  | some len =>
    if skip ≤ len then
      some ({ s with
              tag := KindTag.set_inline_len s.tag (len - skip)
              inlData := s.inlData.drop skip }, st)
    else none
  | none =>
    if skip ≤ s.len then
      if skip = s.cap then some (Storage.set_empty st s)
      else
        let s1 :=
          if KindTag.is_vec s.tag then { s with tag := KindTag.advance_vec s.tag skip }
          else s
        some ({ s1 with
                ptr := { base := s.ptr.base, off := s.ptr.off + skip }
                len := s.len - skip
                cap := s.cap - skip }, st)
    else none

/-- `Storage::try_unsplit`.  Result is (updated self, state, `none` on `Ok`
resp. `some other` on `Err`); the `other` value is dropped on the success
paths exactly as the moved-in argument is dropped in the source. -/
def try_unsplit (st : State) (s other : Storage) : Storage × State × Option Storage :=
  if other.is_empty then (s, Storage.dropS st other, none)
  else
    match KindTag.is_inline_empty s.tag with
    | some true => (other, Storage.dropS st s, none)
    | some false => (s, st, some other)
    | none =>
      if s.len = 0 then (other, Storage.dropS st s, none)
      else if KindTag.is_inline other.tag then (s, st, some other)
      else
        if s.ptr.base = other.ptr.base ∧ s.ptr.off + s.len = other.ptr.off
            ∧ KindTag.is_vec s.tag = false ∧ KindTag.is_vec other.tag = false then
          ({ s with cap := s.len + other.cap, len := s.len + other.cap },
           Storage.dropS st other, none)
        else (s, st, some other)

/-- `Storage::shallow_clone`: returns (clone, updated self, state).  The
`Vec` arm retags the receiver as `Shared` in place (refcount 2). -/
def shallow_clone (st : State) (s : Storage) : Storage × Storage × State :=
  match KindTag.decode s.tag with
  | Kind.static => (s, s, st)
  | Kind.inlineData _ => (s, s, st)
  | Kind.shared addr => (s, s, KindShared.acquire st addr)
  | Kind.vec offset =>
    let (v, s1) := KindVec.rebuild_vec offset s
    let (addr, st') := KindShared.new2 st v
    let s2 := { s1 with tag := addr }
    (s2, s2, st')

/-- `Storage::split_off`: result is (updated self, returned tail, state). -/
def split_off (st : State) (s : Storage) (n : Nat) :
    Option (Storage × Storage × State) :=
  let (tail, s1, st1) := Storage.shallow_clone st s
  match Storage.advance st1 tail n with
  | none => none
  | some (tail', st2) => some (Storage.truncate_capacity s1 n, tail', st2)

/-- `Storage::split_to`: result is (updated self, returned head, state). -/
def split_to (st : State) (s : Storage) (n : Nat) :
    Option (Storage × Storage × State) :=
  let (tail, s1, st1) := Storage.shallow_clone st s
  match Storage.advance st1 s1 n with
  | none => none
  | some (s2, st2) => some (s2, Storage.truncate_capacity tail n, st2)

/-- `Storage::take`. -/
def take (st : State) (s : Storage) : Option (Storage × Storage × State) :=
  Storage.split_to st s (Storage.length s)

/-- `Storage::upgrade`: (returned bool, updated self). -/
def upgrade (st : State) (s : Storage) : Bool × Storage :=
  match KindTag.decode s.tag with
  | Kind.static => (false, s)
  | Kind.shared _ =>
    match st.getShared s.tag with
    | none => (false, s)
    | some r =>
      if r.refCount = 1 then
        (true, { s with cap := r.cap - (s.ptr.off - r.ptr.off) })
      else (false, s)
  | Kind.inlineData _ => (true, s)
  | Kind.vec _ => (true, s)

/-- `Storage::slice_len`; `none` models panics (both the slice-indexing panic
of `&self.data()[begin..][..len]` and the explicit `assert!`s).  Result is
(new storage, updated self, state) — the big branch shallow-clones, which can
retag the receiver. -/
def slice_len (st : State) (s : Storage) (b len : Nat) :
    Option (Storage × Storage × State) :=
  if len = 0 then some (Storage.new, s, st)
  else if len ≤ INLINE_CAPACITY then
    if b + len ≤ (Storage.data st s).length then
      some (Storage.from_data_inline (((Storage.data st s).drop b).take len), s, st)
    else none
  else
    if KindTag.is_inline s.tag then none
    else if b < s.len ∧ b + len < s.len then
      let (new0, s1, st1) := Storage.shallow_clone st s
      some ({ new0 with
              ptr := { base := new0.ptr.base, off := new0.ptr.off + b }
              len := len
              cap := len }, s1, st1)
    else none

/-- `Storage::slice`. -/
def slice (st : State) (s : Storage) (b e : Nat) :
    Option (Storage × Storage × State) :=
  if b ≤ e then Storage.slice_len st s b (e - b) else none

end Storage

namespace UnBytes

/-- `UnBytes::try_mut`. -/
def try_mut (st : State) (s : Storage) : Except Storage Storage :=
  let (ok, s') := Storage.upgrade st s
  if ok then Except.ok s' else Except.error s'

/-- `UnBytes::try_ext`. -/
def try_ext (st : State) (s : Storage) : Except Storage Storage :=
  let (ok, s') := Storage.upgrade st s
  if ok then Except.ok s' else Except.error s'

end UnBytes

/-- `SliceIter` (`src/unsync/iter.rs`): pointer-range walk over a borrowed
slice, modelled as two cursors into the fixed underlying bytes. -/
structure SliceIter where
  ptrI : Nat
  endI : Nat
  data : List Byte
deriving DecidableEq

namespace SliceIter

def new (data : List Byte) : SliceIter := ⟨0, data.length, data⟩

/-- `Iterator::next`. -/
def next (it : SliceIter) : Option Byte × SliceIter :=
  if it.ptrI = it.endI then (none, it)
  else (some (it.data.getD it.ptrI 0), { it with ptrI := it.ptrI + 1 })

/-- `DoubleEndedIterator::next_back`. -/
def next_back (it : SliceIter) : Option Byte × SliceIter :=
  if it.ptrI = it.endI then (none, it)
  else (some (it.data.getD (it.endI - 1) 0), { it with endI := it.endI - 1 })

/-- `ExactSizeIterator::len`: `end - ptr`. -/
def lenI (it : SliceIter) : Nat := it.endI - it.ptrI

/-- `Iterator::size_hint`. -/
def size_hint (it : SliceIter) : Nat × Option Nat := (it.lenI, some it.lenI)

end SliceIter

/-- `Iter<T>` (`src/unsync/iter.rs`): by-value owning iterator with a forward
position and a back length cursor. -/
structure ByteIter where
  pos : Nat
  len : Nat
  data : List Byte
deriving DecidableEq

namespace ByteIter

def new (data : List Byte) : ByteIter := ⟨0, data.length, data⟩

/-- `Iterator::next`. -/
def next (it : ByteIter) : Option Byte × ByteIter :=
  if it.pos ≥ it.len then (none, it)
  else (some (it.data.getD it.pos 0), { it with pos := it.pos + 1 })

/-- `DoubleEndedIterator::next_back`: decrements `len` and yields `data[len]`. -/
def next_back (it : ByteIter) : Option Byte × ByteIter :=
  if it.pos ≥ it.len then (none, it)
  else (some (it.data.getD (it.len - 1) 0), { it with len := it.len - 1 })

/-- `ExactSizeIterator::len`: the source computes `data.as_ref().len() - pos`,
ignoring the back cursor `len`. -/
def lenI (it : ByteIter) : Nat := it.data.length - it.pos

/-- `Iterator::size_hint`. -/
def size_hint (it : ByteIter) : Nat × Option Nat := (it.lenI, some it.lenI)

end ByteIter

/-- Well-formedness of a storage against the heap: the tag decodes
consistently, the logical window fits its backing, and a `Shared` tag points
to a live record whose block contains the window.  Every storage reachable
from the constructors through the operations satisfies this. -/
def Storage.wfB (st : State) (s : Storage) : Bool :=
  match KindTag.decode s.tag with
  | Kind.inlineData l => decide (l ≤ INLINE_CAPACITY)
  | Kind.static => decide (s.len ≤ s.cap)
  | Kind.vec offset =>
    !KindTag.is_inline s.tag && decide (s.len ≤ s.cap) && decide (s.ptr.off = offset)
  | Kind.shared _ =>
    decide (s.len ≤ s.cap) &&
    match st.getShared s.tag with
    | some r =>
      decide (1 ≤ r.refCount) && decide (r.ptr.base = s.ptr.base)
        && decide (r.ptr.off ≤ s.ptr.off)
        && decide (s.ptr.off - r.ptr.off + s.cap ≤ r.cap)
    | none => false

/-- The "unique owner" characterization of the claim: Inline, OwnedVector, or
Shared with refcount 1. -/
def Storage.uniqueOwner (st : State) (s : Storage) : Bool :=
  match KindTag.decode s.tag with
  | Kind.static => false
  | Kind.inlineData _ => true
  | Kind.vec _ => true
  | Kind.shared _ =>
    match st.getShared s.tag with
    | some r => r.refCount == 1
    | none => false

/-! Inversion facts for the tag decoder. -/

theorem decode_static_elim {t : Nat} (h : KindTag.decode t = Kind.static) :
    t = 0 := by
  unfold KindTag.decode at h
  split_ifs at h
  all_goals simp_all

theorem decode_vec_elim {t o : Nat} (h : KindTag.decode t = Kind.vec o) :
    t ≠ 0 ∧ t &&& 0x1 = 0x1 ∧ o = t >>> 2 := by
  unfold KindTag.decode at h
  split_ifs at h
  all_goals simp_all

theorem decode_inline_elim {t l : Nat} (h : KindTag.decode t = Kind.inlineData l) :
    t ≠ 0 ∧ ¬ t &&& 0x1 = 0x1 ∧ t &&& 0x2 = 0x2 ∧ l = (t &&& 0xff) >>> 2 := by
  unfold KindTag.decode at h
  split_ifs at h
  all_goals simp_all

theorem decode_shared_elim {t a : Nat} (h : KindTag.decode t = Kind.shared a) :
    t ≠ 0 ∧ ¬ t &&& 0x1 = 0x1 ∧ ¬ t &&& 0x2 = 0x2 ∧ a = t := by
  unfold KindTag.decode at h
  split_ifs at h
  all_goals simp_all

theorem and_two_cases (t : Nat) : t &&& 2 = 0 ∨ t &&& 2 = 2 := by
  have h := Nat.and_two_pow t 1
  rcases hb : t.testBit 1 <;> rw [hb] at h <;> simp at h <;> omega

theorem is_inline_false_of_not_bit1 {t : Nat} (h : ¬ t &&& 0x2 = 0x2) :
    KindTag.is_inline t = false := by
  rcases and_two_cases t with h0 | h2
  · simp [KindTag.is_inline, h0]
  · exact absurd h2 h

theorem decode_inline_len_none {t : Nat} (h : KindTag.is_inline t = false) :
    KindTag.decode_inline_len t = none := by
  simp [KindTag.decode_inline_len, h]

theorem decode_inline_len_some {t l : Nat} (h : KindTag.decode t = Kind.inlineData l) :
    KindTag.decode_inline_len t = some l := by
  obtain ⟨-, -, h2, hl⟩ := decode_inline_elim h
  simp [KindTag.decode_inline_len, KindTag.is_inline, h2, hl]

/-- C6: `try_mut`/`try_ext` succeed exactly when the backend is Inline,
OwnedVector, or Shared with refcount 1 (i.e. iff `upgrade()` returns true);
on failure the receiver is returned unchanged; on success byte content and
length are preserved and `capacity() ≥ len()`. -/
theorem C6_try_mut_upgrade (st : State) (s : Storage) (h : Storage.wfB st s = true) :
    ((UnBytes.try_mut st s).isOk = Storage.uniqueOwner st s)
    ∧ (∀ e, UnBytes.try_mut st s = Except.error e → e = s)
    ∧ (∀ m, UnBytes.try_mut st s = Except.ok m →
        Storage.data st m = Storage.data st s
        ∧ Storage.length m = Storage.length s
        ∧ Storage.length m ≤ Storage.capacity m)
    ∧ UnBytes.try_ext st s = UnBytes.try_mut st s := by
  unfold Storage.wfB at h
  rcases hdec : KindTag.decode s.tag with _ | o | l | a <;> rw [hdec] at h
  case static =>
    have hup : Storage.upgrade st s = (false, s) := by
      simp [Storage.upgrade, hdec]
    have hm : UnBytes.try_mut st s = Except.error s := by
      simp [UnBytes.try_mut, hup]
    have he : UnBytes.try_ext st s = Except.error s := by
      simp [UnBytes.try_ext, hup]
    have huo : Storage.uniqueOwner st s = false := by
      simp [Storage.uniqueOwner, hdec]
    rw [hm, he, huo]
    refine ⟨rfl, ?_, ?_, rfl⟩
    · intro e h'
      injection h' with h'
      exact h'.symm
    · intro m h'
      simp at h'
  case vec =>
    simp only [Bool.and_eq_true, Bool.not_eq_true', decide_eq_true_eq] at h
    obtain ⟨⟨hni, hlc⟩, -⟩ := h
    have hup : Storage.upgrade st s = (true, s) := by
      simp [Storage.upgrade, hdec]
    have hm : UnBytes.try_mut st s = Except.ok s := by
      simp [UnBytes.try_mut, hup]
    have he : UnBytes.try_ext st s = Except.ok s := by
      simp [UnBytes.try_ext, hup]
    have huo : Storage.uniqueOwner st s = true := by
      simp [Storage.uniqueOwner, hdec]
    rw [hm, he, huo]
    refine ⟨rfl, ?_, ?_, rfl⟩
    · intro e h'
      simp at h'
    · intro m h'
      injection h' with h'
      subst h'
      refine ⟨rfl, rfl, ?_⟩
      simp only [Storage.length, Storage.capacity, decode_inline_len_none hni, hni,
        Option.getD_none, Bool.false_eq_true, if_false]
      exact hlc
  case inlineData =>
    simp only [decide_eq_true_eq] at h
    have hsome := decode_inline_len_some hdec
    have hinl : KindTag.is_inline s.tag = true := by
      obtain ⟨-, -, h2, -⟩ := decode_inline_elim hdec
      simp [KindTag.is_inline, h2]
    have hup : Storage.upgrade st s = (true, s) := by
      simp [Storage.upgrade, hdec]
    have hm : UnBytes.try_mut st s = Except.ok s := by
      simp [UnBytes.try_mut, hup]
    have he : UnBytes.try_ext st s = Except.ok s := by
      simp [UnBytes.try_ext, hup]
    have huo : Storage.uniqueOwner st s = true := by
      simp [Storage.uniqueOwner, hdec]
    rw [hm, he, huo]
    refine ⟨rfl, ?_, ?_, rfl⟩
    · intro e h'
      simp at h'
    · intro m h'
      injection h' with h'
      subst h'
      refine ⟨rfl, rfl, ?_⟩
      simp only [Storage.length, Storage.capacity, hsome, hinl, Option.getD_some, if_true]
      exact h
  case shared =>
    have hni : KindTag.is_inline s.tag = false :=
      is_inline_false_of_not_bit1 (decode_shared_elim hdec).2.2.1
    rcases hr : st.getShared s.tag with - | r <;> rw [hr] at h
    · simp at h
    · simp only [Bool.and_eq_true, decide_eq_true_eq] at h
      have hlc : s.len ≤ s.cap := h.1
      have hcap : s.ptr.off - r.ptr.off + s.cap ≤ r.cap := by tauto
      by_cases h1 : r.refCount = 1
      · have hup : Storage.upgrade st s =
            (true, { s with cap := r.cap - (s.ptr.off - r.ptr.off) }) := by
          simp [Storage.upgrade, hdec, hr, h1]
        have hm : UnBytes.try_mut st s =
            Except.ok { s with cap := r.cap - (s.ptr.off - r.ptr.off) } := by
          simp [UnBytes.try_mut, hup]
        have he : UnBytes.try_ext st s =
            Except.ok { s with cap := r.cap - (s.ptr.off - r.ptr.off) } := by
          simp [UnBytes.try_ext, hup]
        have huo : Storage.uniqueOwner st s = true := by
          simp [Storage.uniqueOwner, hdec, hr, h1]
        rw [hm, he, huo]
        refine ⟨rfl, ?_, ?_, rfl⟩
        · intro e h'
          simp at h'
        · intro m h'
          injection h' with h'
          subst h'
          refine ⟨rfl, rfl, ?_⟩
          simp only [Storage.length, Storage.capacity, decode_inline_len_none hni, hni,
            Option.getD_none, Bool.false_eq_true, if_false]
          omega
      · have hup : Storage.upgrade st s = (false, s) := by
          simp [Storage.upgrade, hdec, hr, h1]
        have hm : UnBytes.try_mut st s = Except.error s := by
          simp [UnBytes.try_mut, hup]
        have he : UnBytes.try_ext st s = Except.error s := by
          simp [UnBytes.try_ext, hup]
        have huo : Storage.uniqueOwner st s = false := by
          simp [Storage.uniqueOwner, hdec, hr, h1]
        rw [hm, he, huo]
        refine ⟨rfl, ?_, ?_, rfl⟩
        · intro e h'
          injection h' with h'
          exact h'.symm
        · intro m h'
          simp at h'

def c6St : State := ⟨[some (List.replicate 10 5)], [some ⟨⟨0, 0⟩, 10, 1⟩]⟩

def c6S : Storage := ⟨4, [], ⟨0, 2⟩, 3, 5⟩

/-- C6 witness: the theorem applied to a concrete Shared-backed storage with
refcount 1 (window of 3 bytes at offset 2 into a 10-byte block). -/
theorem C6_try_mut_upgrade_witness :
    Storage.wfB c6St c6S = true
    ∧ (((UnBytes.try_mut c6St c6S).isOk = Storage.uniqueOwner c6St c6S)
      ∧ (∀ e, UnBytes.try_mut c6St c6S = Except.error e → e = c6S)
      ∧ (∀ m, UnBytes.try_mut c6St c6S = Except.ok m →
          Storage.data c6St m = Storage.data c6St c6S
          ∧ Storage.length m = Storage.length c6S
          ∧ Storage.length m ≤ Storage.capacity m)
      ∧ UnBytes.try_ext c6St c6S = UnBytes.try_mut c6St c6S) :=
  ⟨by decide, C6_try_mut_upgrade c6St c6S (by decide)⟩

/-! Bit algebra for the tag transformations used by the canonical-empty
claims. -/

theorem lor_and_distrib_right (a b c : Nat) :
    (a ||| b) &&& c = (a &&& c) ||| (b &&& c) := by
  apply Nat.eq_of_testBit_eq
  intro i
  simp [Nat.testBit_lor, Nat.testBit_land, Bool.and_or_distrib_right]

theorem set_inline_len_zero_eq (t : Nat) :
    KindTag.set_inline_len t 0 = t &&& NOT_FC := by
  unfold KindTag.set_inline_len
  simp [Nat.zero_shiftLeft]

theorem set_inline_len_zero_is_inline (t : Nat) :
    KindTag.is_inline (KindTag.set_inline_len t 0) = KindTag.is_inline t := by
  rw [set_inline_len_zero_eq]
  unfold KindTag.is_inline
  rw [Nat.land_assoc, show NOT_FC &&& 0x2 = 0x2 from by decide]

theorem set_inline_len_zero_len (t : Nat) (h : KindTag.is_inline t = true) :
    KindTag.decode_inline_len (KindTag.set_inline_len t 0) = some 0 := by
  have hi : KindTag.is_inline (KindTag.set_inline_len t 0) = true := by
    rw [set_inline_len_zero_is_inline, h]
  unfold KindTag.decode_inline_len
  rw [hi, if_pos rfl, set_inline_len_zero_eq]
  rw [Nat.land_assoc, show NOT_FC &&& 0xff = 0x3 from by decide]
  have h3 : t &&& 0x3 ≤ 3 := Nat.and_le_right
  rw [Nat.shiftRight_eq_div_pow]
  norm_num
  omega

theorem set_empty_is_inline (t : Nat) :
    KindTag.is_inline (KindTag.set_empty t) = true := by
  unfold KindTag.is_inline KindTag.set_empty
  rw [lor_and_distrib_right, Nat.land_assoc,
    show NOT_FF &&& 0x2 = 0 from by decide, Nat.and_zero]
  decide

theorem set_empty_len (t : Nat) :
    KindTag.decode_inline_len (KindTag.set_empty t) = some 0 := by
  unfold KindTag.decode_inline_len
  rw [set_empty_is_inline, if_pos rfl]
  unfold KindTag.set_empty
  rw [lor_and_distrib_right, Nat.land_assoc,
    show NOT_FF &&& 0xff = 0 from by decide, Nat.and_zero]
  decide

/-- C8 (amended): the canonical empty form is the inline variant with length
zero, and it is produced by `new()`, by `truncate(0)`/`clear` on an inline
storage, and by `advance(skip)` with `skip = cap ≤ len` on a Shared- or
OwnedVector-backed storage (which releases the backend); other empty-producing
operations keep their backend's tag (see the counterexample). -/
theorem C8_canonical_empty_amended :
    (KindTag.is_inline Storage.new.tag = true ∧ Storage.length Storage.new = 0
      ∧ Storage.new.is_empty = true)
    ∧ (∀ s : Storage, KindTag.is_inline s.tag = true →
        KindTag.is_inline (Storage.truncate s 0).tag = true
        ∧ Storage.length (Storage.truncate s 0) = 0)
    ∧ (∀ (st : State) (s : Storage) (a : Nat), KindTag.decode s.tag = Kind.shared a →
        s.cap ≤ s.len →
        ∃ s' st', Storage.advance st s s.cap = some (s', st')
          ∧ KindTag.is_inline s'.tag = true ∧ Storage.length s' = 0
          ∧ st' = KindShared.release st a)
    ∧ (∀ (st : State) (s : Storage) (o : Nat), KindTag.decode s.tag = Kind.vec o →
        KindTag.is_inline s.tag = false → s.cap ≤ s.len →
        ∃ s' st', Storage.advance st s s.cap = some (s', st')
          ∧ KindTag.is_inline s'.tag = true ∧ Storage.length s' = 0
          ∧ st' = st.freeAlloc s.ptr.base) := by
  refine ⟨⟨by decide, by decide, by decide⟩, ?_, ?_, ?_⟩
  · intro s hi
    have hdl : KindTag.decode_inline_len s.tag = some ((s.tag &&& 0xff) >>> 2) := by
      unfold KindTag.decode_inline_len
      rw [hi, if_pos rfl]
    unfold Storage.truncate
    rw [hdl]
    dsimp only
    by_cases h0 : 0 < (s.tag &&& 0xff) >>> 2
    · rw [if_pos h0]
      refine ⟨?_, ?_⟩
      · simp only
        rw [set_inline_len_zero_is_inline, hi]
      · simp only [Storage.length]
        rw [set_inline_len_zero_len _ hi]
        rfl
    · rw [if_neg h0]
      refine ⟨hi, ?_⟩
      simp only [Storage.length]
      rw [hdl]
      simp only [Option.getD_some]
      omega
  · intro st s a hdec hcl
    have hni : KindTag.is_inline s.tag = false :=
      is_inline_false_of_not_bit1 (decode_shared_elim hdec).2.2.1
    unfold Storage.advance
    rw [decode_inline_len_none hni, if_pos hcl, if_pos rfl]
    simp only [Storage.set_empty, hdec]
    refine ⟨_, _, rfl, set_empty_is_inline _, ?_, rfl⟩
    simp only [Storage.length]
    rw [set_empty_len]
    rfl
  · intro st s o hdec hni hcl
    unfold Storage.advance
    rw [decode_inline_len_none hni, if_pos hcl, if_pos rfl]
    simp only [Storage.set_empty, hdec, KindVec.rebuild_vec]
    refine ⟨_, _, rfl, set_empty_is_inline _, ?_, rfl⟩
    simp only [Storage.length]
    rw [set_empty_len]
    rfl

def c8wInline : Storage := Storage.from_data_inline [5]

def c8wSharedSt : State := ⟨[some [1, 2, 3]], [some ⟨⟨0, 0⟩, 3, 1⟩]⟩

def c8wShared : Storage := ⟨4, [], ⟨0, 0⟩, 3, 3⟩

def c8wVecSt : State := ⟨[some [1, 2, 3]], []⟩

def c8wVec : Storage := ⟨1, [], ⟨0, 0⟩, 3, 3⟩

/-- C8 witness: the amended theorem applied to a concrete inline storage, a
concrete full Shared-backed storage and a concrete full OwnedVector-backed
storage. -/
theorem C8_canonical_empty_amended_witness :
    (KindTag.is_inline c8wInline.tag = true
      ∧ KindTag.decode c8wShared.tag = Kind.shared 4 ∧ c8wShared.cap ≤ c8wShared.len
      ∧ KindTag.decode c8wVec.tag = Kind.vec 0
      ∧ KindTag.is_inline c8wVec.tag = false ∧ c8wVec.cap ≤ c8wVec.len)
    ∧ (KindTag.is_inline (Storage.truncate c8wInline 0).tag = true
      ∧ Storage.length (Storage.truncate c8wInline 0) = 0)
    ∧ (∃ s' st', Storage.advance c8wSharedSt c8wShared c8wShared.cap = some (s', st')
      ∧ KindTag.is_inline s'.tag = true ∧ Storage.length s' = 0
      ∧ st' = KindShared.release c8wSharedSt 4)
    ∧ (∃ s' st', Storage.advance c8wVecSt c8wVec c8wVec.cap = some (s', st')
      ∧ KindTag.is_inline s'.tag = true ∧ Storage.length s' = 0
      ∧ st' = c8wVecSt.freeAlloc c8wVec.ptr.base) :=
  ⟨⟨by decide, by decide, by decide, by decide, by decide, by decide⟩,
   C8_canonical_empty_amended.2.1 c8wInline (by decide),
   C8_canonical_empty_amended.2.2.1 c8wSharedSt c8wShared 4 (by decide) (by decide),
   C8_canonical_empty_amended.2.2.2 c8wVecSt c8wVec 0 (by decide) (by decide) (by decide)⟩

def c8Static : Storage × State := Storage.from_static State.empty []

/-- C8 counterexample: `from_static` of an empty slice yields an *empty*
storage whose tag is the Static tag (the whole word zero), not the inline
variant — so not every empty reachable storage is in the canonical inline
form. -/
theorem C8_empty_not_always_inline :
    Storage.length c8Static.1 = 0
    ∧ Storage.is_empty c8Static.1 = true
    ∧ KindTag.decode c8Static.1.tag = Kind.static
    ∧ KindTag.is_inline c8Static.1.tag = false := by decide

theorem getShared_lt {st : State} {a : Nat} {r : SharedRec}
    (h : st.getShared a = some r) : a / 4 - 1 < st.shareds.length := by
  unfold State.getShared at h
  by_contra h'
  push_neg at h'
  rw [List.getD_eq_default _ _ h'] at h
  simp at h

theorem getShared_setShared_self {st : State} {a : Nat} {r : SharedRec}
    (x : SharedRec) (h : st.getShared a = some r) :
    (st.setShared a x).getShared a = some x := by
  have hlt := getShared_lt h
  unfold State.getShared State.setShared
  simp only
  rw [List.getD_eq_getElem?_getD, List.getElem?_set_eq_of_lt _ hlt]
  rfl

/-- C10: on a Shared-backed storage with refcount 1 and `len < cap`,
`split_to(0)` (resp. `split_off(len)`) returns an empty handle that is still
Shared-tagged and keeps the block's refcount at 2; while it is alive
`upgrade()` on the other handle returns false, and dropping it makes
`upgrade()` return true again. -/
theorem C10_empty_shared_handle (st : State) (s : Storage) (r : SharedRec)
    (hdec : KindTag.decode s.tag = Kind.shared s.tag)
    (hr : st.getShared s.tag = some r)
    (hrc : r.refCount = 1)
    (hlt : s.len < s.cap) :
    (∃ s2 tail st2, Storage.split_to st s 0 = some (s2, tail, st2)
      ∧ tail.is_empty = true
      ∧ KindTag.decode tail.tag = Kind.shared s.tag
      ∧ (∃ r2, st2.getShared s.tag = some r2 ∧ r2.refCount = 2)
      ∧ (Storage.upgrade st2 s2).1 = false
      ∧ (Storage.upgrade (Storage.dropS st2 tail) s2).1 = true)
    ∧ (∃ s3 tail3 st3, Storage.split_off st s s.len = some (s3, tail3, st3)
      ∧ tail3.is_empty = true
      ∧ KindTag.decode tail3.tag = Kind.shared s.tag
      ∧ Storage.length s3 = s.len
      ∧ (∃ r2, st3.getShared s.tag = some r2 ∧ r2.refCount = 2)
      ∧ (Storage.upgrade st3 s3).1 = false
      ∧ (Storage.upgrade (Storage.dropS st3 tail3) s3).1 = true) := by
  obtain ⟨hne, hb1, hb2, -⟩ := decode_shared_elim hdec
  have hni : KindTag.is_inline s.tag = false := is_inline_false_of_not_bit1 hb2
  have hnv : KindTag.is_vec s.tag = false := by
    simp only [KindTag.is_vec]
    simpa using hb1
  have hdil := decode_inline_len_none hni
  have hcap0 : 0 < s.cap := by omega
  have hemp : ∀ x : Storage, x.tag = s.tag → x.len = 0 → x.is_empty = true := by
    intro x hx hl
    simp [Storage.is_empty, KindTag.is_inline_empty, hx, hni, hl]
  have hsc : Storage.shallow_clone st s =
      (s, s, st.setShared s.tag { r with refCount := r.refCount + 1 }) := by
    simp [Storage.shallow_clone, hdec, KindShared.acquire, hr]
  have hr2 : (st.setShared s.tag { r with refCount := r.refCount + 1 }).getShared s.tag
      = some { r with refCount := r.refCount + 1 } := getShared_setShared_self _ hr
  have hupgF : ∀ x : Storage, x.tag = s.tag → x.ptr = s.ptr →
      (Storage.upgrade (st.setShared s.tag { r with refCount := r.refCount + 1 }) x).1
        = false := by
    intro x hx hp
    simp only [Storage.upgrade, hx, hp, hdec, hr2]
    rw [if_neg (by simp; omega)]
  have hrel : KindShared.release (st.setShared s.tag { r with refCount := r.refCount + 1 })
      s.tag = (st.setShared s.tag { r with refCount := r.refCount + 1 }).setShared s.tag
        ⟨r.ptr, r.cap, r.refCount + 1 - 1⟩ := by
    simp only [KindShared.release, hr2]
    rw [if_pos (by omega)]
  have hr3 : ((st.setShared s.tag { r with refCount := r.refCount + 1 }).setShared s.tag
      ⟨r.ptr, r.cap, r.refCount + 1 - 1⟩).getShared s.tag
      = some ⟨r.ptr, r.cap, r.refCount + 1 - 1⟩ := getShared_setShared_self _ hr2
  have hupgT : ∀ x : Storage, x.tag = s.tag → x.ptr = s.ptr →
      (Storage.upgrade ((st.setShared s.tag { r with refCount := r.refCount + 1 }).setShared
        s.tag ⟨r.ptr, r.cap, r.refCount + 1 - 1⟩) x).1 = true := by
    intro x hx hp
    simp only [Storage.upgrade, hx, hp, hdec, hr3]
    rw [if_pos (by omega)]
  constructor
  · -- split_to 0
    have hadv0 : Storage.advance
        (st.setShared s.tag { r with refCount := r.refCount + 1 }) s 0 =
        some (s, st.setShared s.tag { r with refCount := r.refCount + 1 }) := by
      unfold Storage.advance
      rw [hdil]
      rw [if_pos (Nat.zero_le _), if_neg (by omega), hnv]
      simp
    have htc0 : Storage.truncate_capacity s 0 =
        if 0 < s.len then { s with len := 0, cap := 0 } else { s with cap := 0 } := by
      simp only [Storage.truncate_capacity, hdec]
      by_cases hl0 : 0 < s.len
      · rw [if_pos hl0, if_pos hl0]
      · rw [if_neg hl0, if_neg hl0, if_pos hcap0]
    have htag : (Storage.truncate_capacity s 0).tag = s.tag := by
      rw [htc0]; split <;> rfl
    have hlen : (Storage.truncate_capacity s 0).len = 0 := by
      rw [htc0]; split
      · rfl
      · simp only; omega
    refine ⟨s, Storage.truncate_capacity s 0,
      st.setShared s.tag { r with refCount := r.refCount + 1 }, ?_, ?_, ?_, ?_, ?_, ?_⟩
    · simp only [Storage.split_to, hsc, hadv0]
    · exact hemp _ htag hlen
    · rw [htag]; exact hdec
    · exact ⟨_, hr2, by simp; omega⟩
    · exact hupgF s rfl rfl
    · have hd : Storage.dropS (st.setShared s.tag { r with refCount := r.refCount + 1 })
          (Storage.truncate_capacity s 0) =
          KindShared.release (st.setShared s.tag { r with refCount := r.refCount + 1 })
            s.tag := by
        simp only [Storage.dropS, htag, hdec]
      rw [hd, hrel]
      exact hupgT s rfl rfl
  · -- split_off len
    have hadvL : Storage.advance
        (st.setShared s.tag { r with refCount := r.refCount + 1 }) s s.len =
        some ({ s with ptr := ⟨s.ptr.base, s.ptr.off + s.len⟩, len := 0, cap := s.cap - s.len },
          st.setShared s.tag { r with refCount := r.refCount + 1 }) := by
      unfold Storage.advance
      rw [hdil]
      rw [if_pos (le_refl _), if_neg (by omega), hnv]
      simp
    have htcL : Storage.truncate_capacity s s.len = { s with cap := s.len } := by
      simp only [Storage.truncate_capacity, hdec]
      rw [if_neg (by omega), if_pos hlt]
    refine ⟨Storage.truncate_capacity s s.len,
      { s with ptr := ⟨s.ptr.base, s.ptr.off + s.len⟩, len := 0, cap := s.cap - s.len },
      st.setShared s.tag { r with refCount := r.refCount + 1 }, ?_, ?_, ?_, ?_, ?_, ?_, ?_⟩
    · simp only [Storage.split_off, hsc, hadvL]
    · exact hemp _ rfl rfl
    · exact hdec
    · rw [htcL]
      simp [Storage.length, hdil]
    · exact ⟨_, hr2, by simp; omega⟩
    · rw [htcL]
      exact hupgF _ rfl rfl
    · have hd : Storage.dropS (st.setShared s.tag { r with refCount := r.refCount + 1 })
          { s with ptr := ⟨s.ptr.base, s.ptr.off + s.len⟩, len := 0, cap := s.cap - s.len } =
          KindShared.release (st.setShared s.tag { r with refCount := r.refCount + 1 })
            s.tag := by
        simp only [Storage.dropS, hdec]
      rw [hd, hrel, htcL]
      exact hupgT _ rfl rfl

def c10St : State := ⟨[some (List.replicate 4 0)], [some ⟨⟨0, 0⟩, 4, 1⟩]⟩

def c10S : Storage := ⟨4, [], ⟨0, 0⟩, 2, 4⟩

/-- C10 witness: the theorem applied to a concrete shared storage (block of
4 bytes, refcount 1, window `len = 2`, `cap = 4`). -/
theorem C10_empty_shared_handle_witness :
    (KindTag.decode c10S.tag = Kind.shared c10S.tag
      ∧ c10St.getShared c10S.tag = some ⟨⟨0, 0⟩, 4, 1⟩
      ∧ (⟨⟨0, 0⟩, 4, 1⟩ : SharedRec).refCount = 1
      ∧ c10S.len < c10S.cap)
    ∧ ((∃ s2 tail st2, Storage.split_to c10St c10S 0 = some (s2, tail, st2)
      ∧ tail.is_empty = true
      ∧ KindTag.decode tail.tag = Kind.shared c10S.tag
      ∧ (∃ r2, st2.getShared c10S.tag = some r2 ∧ r2.refCount = 2)
      ∧ (Storage.upgrade st2 s2).1 = false
      ∧ (Storage.upgrade (Storage.dropS st2 tail) s2).1 = true)
    ∧ (∃ s3 tail3 st3, Storage.split_off c10St c10S c10S.len = some (s3, tail3, st3)
      ∧ tail3.is_empty = true
      ∧ KindTag.decode tail3.tag = Kind.shared c10S.tag
      ∧ Storage.length s3 = c10S.len
      ∧ (∃ r2, st3.getShared c10S.tag = some r2 ∧ r2.refCount = 2)
      ∧ (Storage.upgrade st3 s3).1 = false
      ∧ (Storage.upgrade (Storage.dropS st3 tail3) s3).1 = true)) :=
  ⟨⟨by decide, by decide, by decide, by decide⟩,
   C10_empty_shared_handle c10St c10S ⟨⟨0, 0⟩, 4, 1⟩ (by decide) (by decide)
     (by decide) (by decide)⟩

/-! Concrete executions used to settle the claims that the code refutes. -/

def c1Storage : Storage × State := Storage.from_data State.empty (List.replicate 32 1)

/-- C1: after `reserve(additional)` any non-static storage must satisfy
`reserved_len() ≥ additional`.  Refuted by the code: on an OwnedVector-backed
storage with offset 0 and `len = cap = 32`, `reserve(1)` takes the
`data.capacity() < required` branch of `reserve_from_vec`, which relocates but
never grows the vector, so `reserved_len()` is still `0 < 1`. -/
theorem C1_reserve_underprovision :
    KindTag.decode c1Storage.1.tag = Kind.vec 0
    ∧ Storage.length c1Storage.1 = 32
    ∧ Storage.capacity c1Storage.1 = 32
    ∧ (Storage.reserve c1Storage.2 c1Storage.1 1).map
        (fun q => Storage.reserved_len q.1) = some 0 := by decide

def c2Setup : Storage × State :=
  let p := Storage.from_data State.empty (List.replicate 34 7)
  let q := Storage.shallow_clone p.2 p.1
  let st2 := Storage.dropS q.2.2 q.1
  (Storage.truncate q.2.1 2, st2)

/-- C2: `try_unsplit (split_off at)` must restore the original logical window
(length and bytes) for a non-OwnedVector source, also when `cap > len`.
Refuted by the code: on a Shared-backed storage (refcount 1) with bytes
`[7, 7]`, `len = 2`, `cap = 34`, the merge branch executes
`self.len += other.cap`, so the round trip through `split_off 1` yields
length 34 instead of 2. -/
theorem C2_unsplit_absorbs_reserved :
    Storage.length c2Setup.1 = 2
    ∧ Storage.capacity c2Setup.1 = 34
    ∧ Storage.data c2Setup.2 c2Setup.1 = [7, 7]
    ∧ (Storage.split_off c2Setup.2 c2Setup.1 1).map (fun r =>
        let m := Storage.try_unsplit r.2.2 r.1 r.2.1
        (m.2.2.isNone, Storage.length m.1)) = some (true, 34) := by decide

def c3Storage : Storage × State := Storage.from_data State.empty (List.replicate 32 1)

/-- C3: after `advance(skip)` an OwnedVector storage must still be an
OwnedVector with encoded offset `o + skip`.  Refuted by the code:
`KindTag::advance_vec` computes `(tag + skip) << 2` (operator precedence), so
from tag 1 (offset 0) and `skip = 1` the tag becomes 8 — its vector bit is
gone (it decodes as a `Shared` pointer) instead of the expected tag 5
(offset 1). -/
theorem C3_advance_vec_tag_corrupted :
    KindTag.decode c3Storage.1.tag = Kind.vec 0
    ∧ (Storage.advance c3Storage.2 c3Storage.1 1).map
        (fun q => (q.1.tag, KindTag.is_vec q.1.tag)) = some (8, false)
    ∧ Kind.encode (Kind.vec (0 + 1)) = 5 := by decide

def c4Inline : Storage := Storage.from_data_inline [9]

def c4Vec : Storage × State := Storage.from_data State.empty (List.replicate 32 1)

/-- C4: `reserved()` must return a slice of exactly the bytes `[len, cap)`,
of length `capacity() − len()`.  Refuted by the code: the returned slice
starts at `len` but is built with length `INLINE_CAPACITY` (inline) resp.
`self.cap` (out of line) — 31 instead of 30 for an inline storage of length
1, and 32 instead of 0 for a full vector-backed storage. -/
theorem C4_reserved_slice_overlong :
    Storage.reserved_slice_start c4Inline = 1
    ∧ Storage.reserved_slice_len c4Inline = 31
    ∧ Storage.capacity c4Inline - Storage.length c4Inline = 30
    ∧ Storage.reserved_len c4Inline = 30
    ∧ Storage.reserved_slice_len c4Vec.1 = 32
    ∧ Storage.capacity c4Vec.1 - Storage.length c4Vec.1 = 0 := by decide

def c5Static : Storage × State := Storage.from_static State.empty (List.replicate 32 3)

/-- C5: `slice(begin, end)` must succeed for `begin ≤ end ≤ len()`, in
particular at the boundary `end = len()` with `end − begin > INLINE_CAPACITY`.
Refuted by the code: `slice_len` asserts `begin + len < self.len` (strict), so
`slice(0, 32)` on a 32-byte storage panics although the indices are in range,
while `slice(0, 31)` (inline-sized) succeeds. -/
theorem C5_slice_boundary_panics :
    Storage.length c5Static.1 = 32
    ∧ Storage.slice c5Static.2 c5Static.1 0 32 = none
    ∧ (Storage.slice c5Static.2 c5Static.1 0 31).isSome = true := by decide

def c7Static : Storage × State := Storage.from_static State.empty [1, 2, 3]

/-- C7: after `split_off(at)` the two halves must concatenate to the original
bytes with `tail.len() = len − at`, for every backend.  Refuted by the code on
the Static backend with `at = len = cap`: `advance(at)` hits the
`skip == cap` case and calls `Storage::set_empty`, whose `Static` arm is a
no-op, so the tail keeps all 3 bytes and the halves concatenate to the input
twice. -/
theorem C7_split_off_static_full :
    Storage.data c7Static.2 c7Static.1 = [1, 2, 3]
    ∧ (Storage.split_off c7Static.2 c7Static.1 3).map (fun r =>
        (Storage.data r.2.2 r.1 ++ Storage.data r.2.2 r.2.1, Storage.length r.2.1))
      = some ([1, 2, 3, 1, 2, 3], 3) := by decide

def c9Iter : ByteIter := ((ByteIter.new [1, 2, 3]).next_back).2

def c9Slice : SliceIter := ((SliceIter.new [1, 2, 3]).next_back).2

/-- C9: both iterators must report the exact number of remaining bytes from
`len()`/`size_hint()` after interleaved `next`/`next_back` calls.  Refuted by
the code for the owning iterator: after one `next_back()` on `[1, 2, 3]`
exactly two bytes remain (`next` yields 1, 2, then `none`), but `Iter::len`
computes `data.as_ref().len() - pos = 3` and `size_hint` reports
`(3, some 3)`.  The borrowed-slice iterator is correct on the same calls. -/
theorem C9_iter_len_after_next_back :
    ByteIter.lenI c9Iter = 3
    ∧ ByteIter.size_hint c9Iter = (3, some 3)
    ∧ c9Iter.next.1 = some 1
    ∧ c9Iter.next.2.next.1 = some 2
    ∧ c9Iter.next.2.next.2.next.1 = none
    ∧ SliceIter.lenI c9Slice = 2
    ∧ SliceIter.size_hint c9Slice = (2, some 2) := by decide

end UnsyncBytes
